import Mathlib

/-!
Shallow embedding of the notifier in main.py.

The program polls a channel for new video identifiers per content type and
posts an announcement to a webhook for each identifier that is not yet in
the in-memory known set; a successful post (HTTP 200) adds the identifier
to the set.  External behaviour (the scrapetube listing call and the
requests.post call) is modelled by oracles: a fetch oracle mapping a
content type and an optional limit to a fetch result, and a send oracle
mapping a content type and a video identifier to the outcome of the HTTP
post.  Python exceptions are modelled with Except over an error type whose
constructors name the exception classes that appear in main.py.  Delivery
attempts are additionally recorded in an event log so that temporal claims
about attempts can be stated; the log is pure instrumentation and does not
influence control flow.
-/

/-- The closed enumeration of content categories, from the Literal type
CONTENT_TYPES in main.py. -/
inductive ContentType where
  | videos
  | shorts
  | streams
deriving DecidableEq

/-- The order in which typing.get_args lists the categories; this is both
the baseline initialization order and the dict iteration order of the
main loop. -/
def contentTypes : List ContentType :=
  [ContentType.videos, ContentType.shorts, ContentType.streams]

/-- One entry of the announcements mapping: the dict with keys channel_id
and content used by send_announcment. -/
structure AnnouncementData where
  channel_id : String
  content : String
deriving DecidableEq

/-- Outcome of the HTTP post inside send_announcment: a response with a
status code, a requests Timeout exception, or any other exception raised
by requests.post (for example a connection failure to the endpoint). -/
inductive PostOutcome where
  | status (code : Nat)
  | timeout
  | otherError
deriving DecidableEq

/-- Result of one scrapetube listing call inside get_video_ids: a list of
video identifiers, or one of the exception classes distinguished by
main.py.  The two named error constructors are exactly the classes caught
by try_check_video_ids, which realize the SourceUnavailable failure modes
of the fetch boundary; otherError stands for any other exception, which
main.py does not catch. -/
inductive FetchResult where
  | ok (ids : List String)
  | connectionError
  | jsonDecodeError
  | otherError
deriving DecidableEq

/-- The Python exceptions that can escape the functions of main.py. -/
inductive PyError where
  | keyError
  | timeoutError
  | connectionError
  | jsonDecodeError
  | fetchOtherError
  | postOtherError
  | typeError
deriving DecidableEq

/-- A fetch oracle: the behaviour of scrapetube.get_channel for this
channel as a function of the content type and the optional limit. -/
def FetchOracle : Type := ContentType → Option Nat → FetchResult

/-- A send oracle: the outcome of requests.post for a given content type
and video identifier during one cycle. -/
def SendOracle : Type := ContentType → String → PostOutcome

/-- One recorded delivery attempt: a call of send_announcment that reached
the HTTP post, with the outcome it received.  Pure instrumentation. -/
structure Attempt where
  ct : ContentType
  id : String
  outcome : PostOutcome
deriving DecidableEq

/-- The state of the Looper object: the three constructor arguments and
the per-category known-identifier sets self.video_ids. -/
structure Looper where
  channel_username : String
  announcements : ContentType → Option AnnouncementData
  token : String
  video_ids : ContentType → Finset String

/-- Embedding of get_video_ids: one scrapetube call with the given limit,
collecting the returned identifiers into a set; exceptions propagate.
The returned Python set is represented by its duplicate-free iteration
sequence. -/
def get_video_ids (fetch : FetchOracle) (content_type : ContentType)
    (limit : Option Nat) : Except PyError (List String) :=
  match fetch content_type limit with
  | FetchResult.ok ids => Except.ok ids.dedup
  | FetchResult.connectionError => Except.error PyError.connectionError
  | FetchResult.jsonDecodeError => Except.error PyError.jsonDecodeError
  | FetchResult.otherError => Except.error PyError.fetchOtherError

/-- Embedding of Looper.__init__: store the three arguments and run the
unlimited baseline fetch for every category in get_args order; a failing
baseline fetch propagates out of construction. -/
def Looper.init (announcements : ContentType → Option AnnouncementData)
    (channel_username : String) (token : String) (fetch : FetchOracle) :
    Except PyError Looper :=
  match get_video_ids fetch ContentType.videos none with
  | Except.error e => Except.error e
  | Except.ok vids =>
    match get_video_ids fetch ContentType.shorts none with
    | Except.error e => Except.error e
    | Except.ok shorts =>
      match get_video_ids fetch ContentType.streams none with
      | Except.error e => Except.error e
      | Except.ok streams =>
        Except.ok
          { channel_username := channel_username
            announcements := announcements
            token := token
            video_ids := fun ct =>
              match ct with
              | ContentType.videos => vids.toFinset
              | ContentType.shorts => shorts.toFinset
              | ContentType.streams => streams.toFinset }

/-- The watch URL segment of the announcement text.  In the source the
f-string continues over a backslash line break, so the twelve spaces of
indentation of the continuation line are part of the string. -/
def watchUrlPart : String := "            https://www.youtube.com/watch?v="

/-- Embedding of the content f-string of send_announcment: the configured
template, one space, then the indented watch URL with the identifier. -/
def messageContent (data : AnnouncementData) (video_id : String) : String :=
  data.content ++ " " ++ watchUrlPart ++ video_id

/-- The single text field of the posted body: the f-string
prefixing the mention to the composed content. -/
def postBody (data : AnnouncementData) (video_id : String) : String :=
  "@everyone " ++ messageContent data video_id

/-- The endpoint URL f-string of send_announcment, which also carries the
whitespace of its backslash line continuation. -/
def postUrl (data : AnnouncementData) : String :=
  "https://discordapp.com/api/channels/             " ++ data.channel_id
    ++ "/messages"

/-- The message body as section 4.4 of the design document words it: the
configured template concatenated with the public watch URL for the
identifier.  Written from the document, for comparison with postBody. -/
def specMessageBody (data : AnnouncementData) (video_id : String) : String :=
  data.content ++ "https://www.youtube.com/watch?v=" ++ video_id

/-- Embedding of send_announcment: look up the category in the
announcements mapping (a missing entry is a KeyError), build the URL and
body, post, and return whether the status code equals 200.  A Timeout or
any other exception of the post propagates to the caller. -/
def send_announcment (s : Looper) (content_type : ContentType)
    (video_id : String) (outcome : PostOutcome) : Except PyError Bool :=
  match s.announcements content_type with
  | none => Except.error PyError.keyError
  | some data =>
    let _url := postUrl data
    let _content := postBody data video_id
    match outcome with
    | PostOutcome.status code => Except.ok (code == 200)
    | PostOutcome.timeout => Except.error PyError.timeoutError
    | PostOutcome.otherError => Except.error PyError.postOtherError

/-- Embedding of check_new_video_id: skip identifiers already known,
otherwise attempt delivery; only a Timeout is caught, and a successful
delivery inserts the identifier into the known set of its category.  The
returned list records the delivery attempt if one reached the post. -/
def check_new_video_id (s : Looper) (content_type : ContentType)
    (video_id : String) (so : String → PostOutcome) :
    Except PyError (Looper × List Attempt) :=
  if video_id ∈ s.video_ids content_type then
    Except.ok (s, [])
  else
    match send_announcment s content_type video_id (so video_id) with
    | Except.error PyError.timeoutError =>
      Except.ok (s, [⟨content_type, video_id, so video_id⟩])
    | Except.error e => Except.error e
    | Except.ok result =>
      if result then
        Except.ok
          ({ s with
              video_ids := fun c =>
                if c = content_type then
                  insert video_id (s.video_ids content_type)
                else s.video_ids c },
            [⟨content_type, video_id, so video_id⟩])
      else
        Except.ok (s, [⟨content_type, video_id, so video_id⟩])

/-- Embedding of check_new_video_ids: process every fetched identifier in
iteration order; an uncaught exception aborts the iteration. -/
def check_new_video_ids (s : Looper) (content_type : ContentType)
    (ids : List String) (so : String → PostOutcome) :
    Except PyError (Looper × List Attempt) :=
  match ids with
  | [] => Except.ok (s, [])
  | v :: rest =>
    match check_new_video_id s content_type v so with
    | Except.error e => Except.error e
    | Except.ok (s1, l1) =>
      match check_new_video_ids s1 content_type rest so with
      | Except.error e => Except.error e
      | Except.ok (s2, l2) => Except.ok (s2, l1 ++ l2)

/-- Embedding of try_check_video_ids: a bounded fetch with limit 28; a
ConnectionError or a JSONDecodeError is caught and the category is
skipped, any other exception propagates; on success the fetched set is
iterated. -/
def try_check_video_ids (s : Looper) (content_type : ContentType)
    (fetch : FetchOracle) (so : String → PostOutcome) :
    Except PyError (Looper × List Attempt) :=
  match get_video_ids fetch content_type (some 28) with
  | Except.error PyError.connectionError => Except.ok (s, [])
  | Except.error PyError.jsonDecodeError => Except.ok (s, [])
  | Except.error e => Except.error e
  | Except.ok vids => check_new_video_ids s content_type vids so

/-- The per-category body of one cycle, folded over a list of categories
in iteration order. -/
def checkCategories (s : Looper) (cts : List ContentType)
    (fetch : FetchOracle) (so : SendOracle) :
    Except PyError (Looper × List Attempt) :=
  match cts with
  | [] => Except.ok (s, [])
  | ct :: rest =>
    match try_check_video_ids s ct fetch (so ct) with
    | Except.error e => Except.error e
    | Except.ok (s1, l1) =>
      match checkCategories s1 rest fetch so with
      | Except.error e => Except.error e
      | Except.ok (s2, l2) => Except.ok (s2, l1 ++ l2)

/-- Embedding of Looper.looper: one cycle, which sleeps and then checks
every category of self.video_ids in dict order. -/
def looper (s : Looper) (fetch : FetchOracle) (so : SendOracle) :
    Except PyError (Looper × List Attempt) :=
  checkCategories s contentTypes fetch so

/-- A finite prefix of Looper.run: the infinite while loop executed for a
given list of cycle environments, each supplying the fetch and
send behaviour.  The per-cycle attempt logs are collected in order. -/
def runCycles (s : Looper) :
    List (FetchOracle × SendOracle) →
    Except PyError (Looper × List (List Attempt))
  | [] => Except.ok (s, [])
  | c :: rest =>
    match looper s c.1 c.2 with
    | Except.error e => Except.error e
    | Except.ok (s1, l) =>
      match runCycles s1 rest with
      | Except.error e => Except.error e
      | Except.ok (s2, ls) => Except.ok (s2, l :: ls)

/-- A configuration value of the JSON file read by main: a string, a
number, or the announcements object. -/
inductive ConfigValue where
  | str (s : String)
  | num (n : Nat)
  | table (a : ContentType → Option AnnouncementData)

/-- The keyword parameters of Looper.__init__, which are the only keys a
configuration may carry, since main calls Looper with the config dict
splatted as keyword arguments. -/
def acceptedParams : List String :=
  ["announcements", "channel_username", "token"]

/-- First value stored under a key of the configuration object. -/
def lookupKey (k : String) :
    List (String × ConfigValue) → Option ConfigValue
  | [] => none
  | kv :: rest => if kv.1 = k then some kv.2 else lookupKey k rest

/-- Embedding of the construction in main: Looper is called with the
parsed configuration splatted as keyword arguments, so a key outside the
parameter list of Looper.__init__, or a missing required key, raises a
TypeError before the loop starts. -/
def mkLooper (cfg : List (String × ConfigValue)) (fetch : FetchOracle) :
    Except PyError Looper :=
  if cfg.all (fun kv => decide (kv.1 ∈ acceptedParams)) then
    match lookupKey "announcements" cfg, lookupKey "channel_username" cfg,
        lookupKey "token" cfg with
    | some (ConfigValue.table a), some (ConfigValue.str u),
        some (ConfigValue.str t) => Looper.init a u t fetch
    | _, _, _ => Except.error PyError.typeError
  else Except.error PyError.typeError

/-- A placeholder state, used only as the default of extractors. -/
def defaultLooper : Looper :=
  { channel_username := ""
    announcements := fun _ => none
    token := ""
    video_ids := fun _ => ∅ }

/-- The constructed state of a successful Looper.init. -/
def initD (announcements : ContentType → Option AnnouncementData)
    (channel_username : String) (token : String) (fetch : FetchOracle) :
    Looper :=
  match Looper.init announcements channel_username token fetch with
  | Except.ok s => s
  | Except.error _ => defaultLooper

/-- The identifier list of a successful unlimited baseline fetch. -/
def baselineIdsD (fetch : FetchOracle) (ct : ContentType) : List String :=
  match fetch ct none with
  | FetchResult.ok ids => ids
  | _ => []

/-- The state after one successful cycle; on an uncaught exception the
state observed before the cycle. -/
def cycleStateD (s : Looper) (fetch : FetchOracle) (so : SendOracle) :
    Looper :=
  match looper s fetch so with
  | Except.ok (s1, _) => s1
  | Except.error _ => s

/-- The attempt log of one successful cycle, empty on an uncaught
exception. -/
def cycleLogD (s : Looper) (fetch : FetchOracle) (so : SendOracle) :
    List Attempt :=
  match looper s fetch so with
  | Except.ok (_, l) => l
  | Except.error _ => []

/-- The state after a successful finite run prefix. -/
def runStateD (s : Looper) (cycles : List (FetchOracle × SendOracle)) :
    Looper :=
  match runCycles s cycles with
  | Except.ok (s1, _) => s1
  | Except.error _ => s

/-- The per-cycle attempt logs of a successful finite run prefix. -/
def runLogsD (s : Looper) (cycles : List (FetchOracle × SendOracle)) :
    List (List Attempt) :=
  match runCycles s cycles with
  | Except.ok (_, ls) => ls
  | Except.error _ => []

/-- The state after one call of check_new_video_id, the prior state on an
uncaught exception. -/
def checkStateD (s : Looper) (content_type : ContentType)
    (video_id : String) (so : String → PostOutcome) : Looper :=
  match check_new_video_id s content_type video_id so with
  | Except.ok (s1, _) => s1
  | Except.error _ => s

/-- Whether an attempt record is for the given category and identifier. -/
def attemptMatches (a : Attempt) (ct : ContentType) (id : String) : Bool :=
  decide (a.ct = ct) && decide (a.id = id)

/-- The number of delivery attempts for a category and identifier in an
attempt log. -/
def countAttempts (log : List Attempt) (ct : ContentType) (id : String) :
    Nat :=
  (log.filter (fun a => attemptMatches a ct id)).length

/-- Whether a recorded attempt received a success response. -/
def attemptSuccess (a : Attempt) : Bool :=
  match a.outcome with
  | PostOutcome.status code => code == 200
  | _ => false

/-- Whether an attempt log contains a successful delivery for the given
category and identifier. -/
def hasSuccessAttempt (log : List Attempt) (ct : ContentType)
    (id : String) : Bool :=
  log.any (fun a => attemptMatches a ct id && attemptSuccess a)

/-- Whether any cycle of a run delivered the identifier successfully for
the category. -/
def hasSuccessCycles (logs : List (List Attempt)) (ct : ContentType)
    (id : String) : Bool :=
  logs.any (fun l => hasSuccessAttempt l ct id)

/-- A record matches a category and identifier exactly when its fields
equal them. -/
theorem attemptMatches_iff (a : Attempt) (ct : ContentType) (id : String) :
    attemptMatches a ct id = true ↔ a.ct = ct ∧ a.id = id := by
  simp [attemptMatches]

/-- Attempt counts add over appended logs. -/
theorem countAttempts_append (l1 l2 : List Attempt) (ct : ContentType)
    (id : String) :
    countAttempts (l1 ++ l2) ct id =
      countAttempts l1 ct id + countAttempts l2 ct id := by
  simp [countAttempts, List.filter_append]

/-- Success detection distributes over appended logs. -/
theorem hasSuccessAttempt_append (l1 l2 : List Attempt) (ct : ContentType)
    (id : String) :
    hasSuccessAttempt (l1 ++ l2) ct id =
      (hasSuccessAttempt l1 ct id || hasSuccessAttempt l2 ct id) := by
  simp [hasSuccessAttempt]

/-- Characterization of a successful delivery being present in a log. -/
theorem hasSuccessAttempt_iff (log : List Attempt) (ct : ContentType)
    (id : String) :
    hasSuccessAttempt log ct id = true ↔
      ∃ a ∈ log, a.ct = ct ∧ a.id = id ∧ attemptSuccess a = true := by
  simp [hasSuccessAttempt, List.any_eq_true, Bool.and_eq_true,
    attemptMatches_iff, and_assoc]

/-- A log with no record for a category and identifier counts zero
attempts for them. -/
theorem countAttempts_zero_of {log : List Attempt} {ct : ContentType}
    {id : String} (h : ∀ a ∈ log, ¬(a.ct = ct ∧ a.id = id)) :
    countAttempts log ct id = 0 := by
  unfold countAttempts
  rw [List.length_eq_zero, List.filter_eq_nil_iff]
  intro a ha
  simp only [attemptMatches_iff]
  exact h a ha

/-- Attempt count of a one-record log. -/
theorem countAttempts_singleton (a : Attempt) (ct : ContentType)
    (id : String) :
    countAttempts [a] ct id = if a.ct = ct ∧ a.id = id then 1 else 0 := by
  by_cases h : a.ct = ct ∧ a.id = id
  · rw [if_pos h]
    have hm : attemptMatches a ct id = true := (attemptMatches_iff a ct id).mpr h
    simp [countAttempts, List.filter_cons, hm]
  · rw [if_neg h]
    have hm : attemptMatches a ct id = false := by
      cases hb : attemptMatches a ct id
      · rfl
      · exact absurd ((attemptMatches_iff a ct id).mp hb) h
    simp [countAttempts, List.filter_cons, hm]

/-- Membership in the pointwise update that check_new_video_id performs on
the known sets. -/
theorem mem_update_video_ids (s : Looper) (ct : ContentType) (v : String)
    (c : ContentType) (i : String) :
    (i ∈ (if c = ct then insert v (s.video_ids ct) else s.video_ids c)) ↔
      (i ∈ s.video_ids c ∨ (c = ct ∧ i = v)) := by
  by_cases h : c = ct
  · subst h
    simp [Finset.mem_insert]
    tauto
  · simp [h]

/-- Reduction of send_announcment to its decision structure. -/
theorem send_announcment_eq (s : Looper) (ct : ContentType)
    (video_id : String) (outcome : PostOutcome) :
    send_announcment s ct video_id outcome =
      match s.announcements ct with
      | none => Except.error PyError.keyError
      | some _ =>
        match outcome with
        | PostOutcome.status code => Except.ok (code == 200)
        | PostOutcome.timeout => Except.error PyError.timeoutError
        | PostOutcome.otherError => Except.error PyError.postOtherError := by
  unfold send_announcment
  cases s.announcements ct <;> rfl

/-- Full inversion of one successful check_new_video_id call: every logged
record is for this category and identifier, the known sets change exactly
by the successful deliveries of the log, an unknown identifier is
attempted exactly once, and a known identifier is skipped outright. -/
theorem check_id_master {s : Looper} {ct : ContentType} {v : String}
    {so : String → PostOutcome} {s1 : Looper} {log : List Attempt}
    (h : check_new_video_id s ct v so = Except.ok (s1, log)) :
    (∀ a ∈ log, a.ct = ct ∧ a.id = v) ∧
    (∀ c i, i ∈ s1.video_ids c ↔
      (i ∈ s.video_ids c ∨ hasSuccessAttempt log c i = true)) ∧
    (v ∉ s.video_ids ct → countAttempts log ct v = 1) ∧
    (v ∈ s.video_ids ct → s1 = s ∧ log = []) := by
  unfold check_new_video_id at h
  by_cases hv : v ∈ s.video_ids ct
  · rw [if_pos hv] at h
    simp only [Except.ok.injEq, Prod.mk.injEq] at h
    obtain ⟨rfl, rfl⟩ := h
    refine ⟨?_, ?_, ?_, ?_⟩
    · intro a ha; simp at ha
    · intro c i; simp [hasSuccessAttempt]
    · intro habs; exact absurd hv habs
    · intro _; exact ⟨rfl, rfl⟩
  · rw [if_neg hv] at h
    cases hann : s.announcements ct with
    | none =>
      have hs : send_announcment s ct v (so v) =
          Except.error PyError.keyError := by
        rw [send_announcment_eq, hann]
      rw [hs] at h
      simp at h
    | some data =>
      cases hout : so v with
      | timeout =>
        have hs : send_announcment s ct v (so v) =
            Except.error PyError.timeoutError := by
          rw [send_announcment_eq, hann, hout]
        rw [hs, hout] at h
        simp only [Except.ok.injEq, Prod.mk.injEq] at h
        obtain ⟨rfl, rfl⟩ := h
        refine ⟨?_, ?_, ?_, ?_⟩
        · intro a ha; simp at ha; subst ha; exact ⟨rfl, rfl⟩
        · intro c i
          simp [hasSuccessAttempt, attemptSuccess]
        · intro _
          simp [countAttempts_singleton]
        · intro habs; exact absurd habs hv
      | otherError =>
        have hs : send_announcment s ct v (so v) =
            Except.error PyError.postOtherError := by
          rw [send_announcment_eq, hann, hout]
        rw [hs] at h
        simp at h
      | status code =>
        have hs : send_announcment s ct v (so v) =
            Except.ok (code == 200) := by
          rw [send_announcment_eq, hann, hout]
        rw [hs, hout] at h
        by_cases hc : code = 200
        · have hb : (code == 200) = true := by
            subst hc; rfl
          rw [hb] at h
          simp only [if_true, Except.ok.injEq, Prod.mk.injEq] at h
          obtain ⟨rfl, rfl⟩ := h
          refine ⟨?_, ?_, ?_, ?_⟩
          · intro a ha; simp at ha; subst ha; exact ⟨rfl, rfl⟩
          · intro c i
            subst hc
            rw [mem_update_video_ids]
            constructor
            · rintro (h1 | ⟨h2, h3⟩)
              · exact Or.inl h1
              · subst h2; subst h3
                refine Or.inr ?_
                rw [hasSuccessAttempt_iff]
                exact ⟨⟨c, i, PostOutcome.status 200⟩, by simp, rfl, rfl, rfl⟩
            · rintro (h1 | h2)
              · exact Or.inl h1
              · rw [hasSuccessAttempt_iff] at h2
                obtain ⟨a, ha, hct, hid, _⟩ := h2
                simp at ha
                subst ha
                exact Or.inr ⟨hct.symm, hid.symm⟩
          · intro _
            simp [countAttempts_singleton]
          · intro habs; exact absurd habs hv
        · have hb : (code == 200) = false := by
            simp [hc]
          rw [hb] at h
          simp only [Bool.false_eq_true, if_false, Except.ok.injEq,
            Prod.mk.injEq] at h
          obtain ⟨rfl, rfl⟩ := h
          refine ⟨?_, ?_, ?_, ?_⟩
          · intro a ha; simp at ha; subst ha; exact ⟨rfl, rfl⟩
          · intro c i
            simp [hasSuccessAttempt, attemptSuccess, hc]
          · intro _
            simp [countAttempts_singleton]
          · intro habs; exact absurd habs hv

/-- Inversion of one successful check_new_video_ids iteration: the log
only holds records for this category and the iterated identifiers, and
the known sets change exactly by the successful deliveries of the log. -/
theorem fold_master {ct : ContentType} {so : String → PostOutcome} :
    ∀ {ids : List String} {s s1 : Looper} {log : List Attempt},
      check_new_video_ids s ct ids so = Except.ok (s1, log) →
      (∀ a ∈ log, a.ct = ct ∧ a.id ∈ ids) ∧
      (∀ c i, i ∈ s1.video_ids c ↔
        (i ∈ s.video_ids c ∨ hasSuccessAttempt log c i = true)) := by
  intro ids
  induction ids with
  | nil =>
    intro s s1 log h
    unfold check_new_video_ids at h
    simp only [Except.ok.injEq, Prod.mk.injEq] at h
    obtain ⟨rfl, rfl⟩ := h
    refine ⟨by simp, ?_⟩
    intro c i
    simp [hasSuccessAttempt]
  | cons v rest ih =>
    intro s s1 log h
    cases hc : check_new_video_id s ct v so with
    | error e =>
      have hstep : check_new_video_ids s ct (v :: rest) so =
          Except.error e := by
        simp only [check_new_video_ids, hc]
      rw [hstep] at h
      simp at h
    | ok p =>
      obtain ⟨sm, l1⟩ := p
      have hstep : check_new_video_ids s ct (v :: rest) so =
          match check_new_video_ids sm ct rest so with
          | Except.error e => Except.error e
          | Except.ok (s2, l2) => Except.ok (s2, l1 ++ l2) := by
        simp only [check_new_video_ids, hc]
      rw [hstep] at h
      cases hr : check_new_video_ids sm ct rest so with
      | error e => rw [hr] at h; simp at h
      | ok q =>
        rw [hr] at h
        obtain ⟨s2, l2⟩ := q
        simp only [Except.ok.injEq, Prod.mk.injEq] at h
        obtain ⟨rfl, rfl⟩ := h
        obtain ⟨hsh1, hch1, -, -⟩ := check_id_master hc
        obtain ⟨hsh2, hch2⟩ := ih hr
        constructor
        · intro a ha
          rcases List.mem_append.mp ha with h1 | h2
          · obtain ⟨hct, hid⟩ := hsh1 a h1
            exact ⟨hct, by simp [hid]⟩
          · obtain ⟨hct, hid⟩ := hsh2 a h2
            exact ⟨hct, by simp [hid]⟩
        · intro c i
          rw [hch2, hch1, hasSuccessAttempt_append]
          simp only [Bool.or_eq_true]
          tauto

/-- An unknown identifier appearing in the iterated list is attempted
exactly once by check_new_video_ids when the list has no duplicates, and
not at all when it does not appear. -/
theorem fold_count_one {ct : ContentType} {so : String → PostOutcome}
    {v : String} :
    ∀ {ids : List String} {s s1 : Looper} {log : List Attempt},
      v ∉ s.video_ids ct → ids.Nodup →
      check_new_video_ids s ct ids so = Except.ok (s1, log) →
      countAttempts log ct v = if v ∈ ids then 1 else 0 := by
  intro ids
  induction ids with
  | nil =>
    intro s s1 log _ _ h
    unfold check_new_video_ids at h
    simp only [Except.ok.injEq, Prod.mk.injEq] at h
    obtain ⟨rfl, rfl⟩ := h
    simp [countAttempts]
  | cons e rest ih =>
    intro s s1 log hv hnd h
    cases hc : check_new_video_id s ct e so with
    | error er =>
      have hstep : check_new_video_ids s ct (e :: rest) so =
          Except.error er := by
        simp only [check_new_video_ids, hc]
      rw [hstep] at h
      simp at h
    | ok p =>
      obtain ⟨sm, l1⟩ := p
      have hstep : check_new_video_ids s ct (e :: rest) so =
          match check_new_video_ids sm ct rest so with
          | Except.error er => Except.error er
          | Except.ok (s2, l2) => Except.ok (s2, l1 ++ l2) := by
        simp only [check_new_video_ids, hc]
      rw [hstep] at h
      cases hr : check_new_video_ids sm ct rest so with
      | error er => rw [hr] at h; simp at h
      | ok q =>
        rw [hr] at h
        obtain ⟨s2, l2⟩ := q
        simp only [Except.ok.injEq, Prod.mk.injEq] at h
        obtain ⟨rfl, rfl⟩ := h
        rw [countAttempts_append]
        obtain ⟨hsh1, hch1, hcnt1, -⟩ := check_id_master hc
        by_cases he : e = v
        · subst he
          have h1 : countAttempts l1 ct e = 1 := hcnt1 hv
          have hnr : e ∉ rest := by
            rw [List.nodup_cons] at hnd
            exact hnd.1
          have h2 : countAttempts l2 ct e = 0 := by
            obtain ⟨hsh2, -⟩ := fold_master hr
            refine countAttempts_zero_of ?_
            intro a ha hmt
            obtain ⟨-, hid⟩ := hsh2 a ha
            rw [hmt.2] at hid
            exact hnr hid
          rw [h1, h2]
          simp
        · have h1 : countAttempts l1 ct v = 0 := by
            refine countAttempts_zero_of ?_
            intro a ha hmt
            obtain ⟨-, hid⟩ := hsh1 a ha
            rw [hmt.2] at hid
            exact he hid.symm
          have hvm : v ∉ sm.video_ids ct := by
            rw [hch1]
            rintro (h2 | h2)
            · exact hv h2
            · rw [hasSuccessAttempt_iff] at h2
              obtain ⟨a, ha, -, hid, -⟩ := h2
              obtain ⟨-, hide⟩ := hsh1 a ha
              rw [hide] at hid
              exact he hid
          have h2 := ih hvm (List.nodup_cons.mp hnd).2 hr
          rw [h1, h2]
          have : (v ∈ e :: rest) ↔ (v ∈ rest) := by
            simp [List.mem_cons]
            intro hev
            exact absurd hev.symm he
          by_cases hm : v ∈ rest <;> simp [hm, this]

/-- An identifier already known before the iteration is never attempted
by check_new_video_ids. -/
theorem fold_count_zero_known {ct : ContentType} {so : String → PostOutcome}
    {v : String} :
    ∀ {ids : List String} {s s1 : Looper} {log : List Attempt},
      v ∈ s.video_ids ct →
      check_new_video_ids s ct ids so = Except.ok (s1, log) →
      countAttempts log ct v = 0 := by
  intro ids
  induction ids with
  | nil =>
    intro s s1 log _ h
    unfold check_new_video_ids at h
    simp only [Except.ok.injEq, Prod.mk.injEq] at h
    obtain ⟨rfl, rfl⟩ := h
    simp [countAttempts]
  | cons e rest ih =>
    intro s s1 log hv h
    cases hc : check_new_video_id s ct e so with
    | error er =>
      have hstep : check_new_video_ids s ct (e :: rest) so =
          Except.error er := by
        simp only [check_new_video_ids, hc]
      rw [hstep] at h
      simp at h
    | ok p =>
      obtain ⟨sm, l1⟩ := p
      have hstep : check_new_video_ids s ct (e :: rest) so =
          match check_new_video_ids sm ct rest so with
          | Except.error er => Except.error er
          | Except.ok (s2, l2) => Except.ok (s2, l1 ++ l2) := by
        simp only [check_new_video_ids, hc]
      rw [hstep] at h
      cases hr : check_new_video_ids sm ct rest so with
      | error er => rw [hr] at h; simp at h
      | ok q =>
        rw [hr] at h
        obtain ⟨s2, l2⟩ := q
        simp only [Except.ok.injEq, Prod.mk.injEq] at h
        obtain ⟨rfl, rfl⟩ := h
        rw [countAttempts_append]
        obtain ⟨hsh1, hch1, -, hknown1⟩ := check_id_master hc
        have h1 : countAttempts l1 ct v = 0 := by
          by_cases he : e = v
          · subst he
            obtain ⟨-, rfl⟩ := hknown1 hv
            simp [countAttempts]
          · refine countAttempts_zero_of ?_
            intro a ha hmt
            obtain ⟨-, hid⟩ := hsh1 a ha
            rw [hmt.2] at hid
            exact he hid.symm
        have hvm : v ∈ sm.video_ids ct := by
          rw [hch1]
          exact Or.inl hv
        rw [h1, ih hvm hr]

/-- Whether a Python computation returned normally instead of raising. -/
def isOkE {α : Type} : Except PyError α → Bool
  | Except.ok _ => true
  | Except.error _ => false

/-- Every category is in the enumeration list. -/
theorem mem_contentTypes (ct : ContentType) : ct ∈ contentTypes := by
  cases ct <;> simp [contentTypes]

/-- The enumeration lists each category once. -/
theorem contentTypes_nodup : contentTypes.Nodup := by decide

/-- A successful fetch reduces get_video_ids to the deduplicated list. -/
theorem get_video_ids_ok {fetch : FetchOracle} {ct : ContentType}
    {limit : Option Nat} {ids : List String}
    (h : fetch ct limit = FetchResult.ok ids) :
    get_video_ids fetch ct limit = Except.ok ids.dedup := by
  simp only [get_video_ids, h]

/-- Inversion of one successful try_check_video_ids call: the log only
holds records for this category, and the known sets change exactly by the
successful deliveries of the log. -/
theorem try_master {s s1 : Looper} {log : List Attempt} {ct : ContentType}
    {fetch : FetchOracle} {sop : String → PostOutcome}
    (h : try_check_video_ids s ct fetch sop = Except.ok (s1, log)) :
    (∀ a ∈ log, a.ct = ct) ∧
    (∀ c i, i ∈ s1.video_ids c ↔
      (i ∈ s.video_ids c ∨ hasSuccessAttempt log c i = true)) := by
  cases hf : fetch ct (some 28) with
  | ok ids =>
    simp only [try_check_video_ids, get_video_ids_ok hf] at h
    have hm := fold_master h
    exact ⟨fun a ha => (hm.1 a ha).1, hm.2⟩
  | connectionError =>
    simp only [try_check_video_ids, get_video_ids, hf] at h
    simp only [Except.ok.injEq, Prod.mk.injEq] at h
    obtain ⟨rfl, rfl⟩ := h
    exact ⟨by simp, by intro c i; simp [hasSuccessAttempt]⟩
  | jsonDecodeError =>
    simp only [try_check_video_ids, get_video_ids, hf] at h
    simp only [Except.ok.injEq, Prod.mk.injEq] at h
    obtain ⟨rfl, rfl⟩ := h
    exact ⟨by simp, by intro c i; simp [hasSuccessAttempt]⟩
  | otherError =>
    simp only [try_check_video_ids, get_video_ids, hf] at h
    simp at h

/-- A fetched unknown identifier is attempted exactly once by
try_check_video_ids. -/
theorem try_count_one {v : String} {s s1 : Looper} {log : List Attempt}
    {ct : ContentType} {fetch : FetchOracle} {sop : String → PostOutcome}
    {ids : List String}
    (hv : v ∉ s.video_ids ct) (hf : fetch ct (some 28) = FetchResult.ok ids)
    (hm : v ∈ ids)
    (h : try_check_video_ids s ct fetch sop = Except.ok (s1, log)) :
    countAttempts log ct v = 1 := by
  simp only [try_check_video_ids, get_video_ids_ok hf] at h
  rw [fold_count_one hv (List.nodup_dedup ids) h]
  simp [List.mem_dedup, hm]

/-- A known identifier is never attempted by try_check_video_ids. -/
theorem try_count_zero_known {v : String} {s s1 : Looper}
    {log : List Attempt} {ct : ContentType} {fetch : FetchOracle}
    {sop : String → PostOutcome}
    (hv : v ∈ s.video_ids ct)
    (h : try_check_video_ids s ct fetch sop = Except.ok (s1, log)) :
    countAttempts log ct v = 0 := by
  cases hf : fetch ct (some 28) with
  | ok ids =>
    simp only [try_check_video_ids, get_video_ids_ok hf] at h
    exact fold_count_zero_known hv h
  | connectionError =>
    simp only [try_check_video_ids, get_video_ids, hf] at h
    simp only [Except.ok.injEq, Prod.mk.injEq] at h
    obtain ⟨rfl, rfl⟩ := h
    simp [countAttempts]
  | jsonDecodeError =>
    simp only [try_check_video_ids, get_video_ids, hf] at h
    simp only [Except.ok.injEq, Prod.mk.injEq] at h
    obtain ⟨rfl, rfl⟩ := h
    simp [countAttempts]
  | otherError =>
    simp only [try_check_video_ids, get_video_ids, hf] at h
    simp at h

/-- Inversion of one successful pass over a category list: logged records
belong to the listed categories and the known sets change exactly by the
successful deliveries of the log. -/
theorem cats_master {fetch : FetchOracle} {so : SendOracle} :
    ∀ {cts : List ContentType} {s s1 : Looper} {log : List Attempt},
      checkCategories s cts fetch so = Except.ok (s1, log) →
      (∀ a ∈ log, a.ct ∈ cts) ∧
      (∀ c i, i ∈ s1.video_ids c ↔
        (i ∈ s.video_ids c ∨ hasSuccessAttempt log c i = true)) := by
  intro cts
  induction cts with
  | nil =>
    intro s s1 log h
    unfold checkCategories at h
    simp only [Except.ok.injEq, Prod.mk.injEq] at h
    obtain ⟨rfl, rfl⟩ := h
    exact ⟨by simp, by intro c i; simp [hasSuccessAttempt]⟩
  | cons ct rest ih =>
    intro s s1 log h
    cases hc : try_check_video_ids s ct fetch (so ct) with
    | error e =>
      have hstep : checkCategories s (ct :: rest) fetch so =
          Except.error e := by
        simp only [checkCategories, hc]
      rw [hstep] at h
      simp at h
    | ok p =>
      obtain ⟨sm, l1⟩ := p
      have hstep : checkCategories s (ct :: rest) fetch so =
          match checkCategories sm rest fetch so with
          | Except.error e => Except.error e
          | Except.ok (s2, l2) => Except.ok (s2, l1 ++ l2) := by
        simp only [checkCategories, hc]
      rw [hstep] at h
      cases hr : checkCategories sm rest fetch so with
      | error e => rw [hr] at h; simp at h
      | ok q =>
        rw [hr] at h
        obtain ⟨s2, l2⟩ := q
        simp only [Except.ok.injEq, Prod.mk.injEq] at h
        obtain ⟨rfl, rfl⟩ := h
        obtain ⟨hsh1, hch1⟩ := try_master hc
        obtain ⟨hsh2, hch2⟩ := ih hr
        constructor
        · intro a ha
          rcases List.mem_append.mp ha with h1 | h2
          · simp [hsh1 a h1]
          · simp [List.mem_cons, hsh2 a h2]
        · intro c i
          rw [hch2, hch1, hasSuccessAttempt_append]
          simp only [Bool.or_eq_true]
          tauto

/-- In one pass over a duplicate-free category list, an identifier
unknown for a listed category and returned by its bounded fetch is
attempted exactly once. -/
theorem cats_count_one {v : String} {ids : List String}
    {fetch : FetchOracle} {so : SendOracle} {ct : ContentType} :
    ∀ {cts : List ContentType} {s s1 : Looper} {log : List Attempt},
      cts.Nodup → ct ∈ cts → v ∉ s.video_ids ct →
      fetch ct (some 28) = FetchResult.ok ids → v ∈ ids →
      checkCategories s cts fetch so = Except.ok (s1, log) →
      countAttempts log ct v = 1 := by
  intro cts
  induction cts with
  | nil =>
    intro s s1 log _ hctm
    simp at hctm
  | cons c rest ih =>
    intro s s1 log hnd hctm hv hf hm h
    cases hc : try_check_video_ids s c fetch (so c) with
    | error e =>
      have hstep : checkCategories s (c :: rest) fetch so =
          Except.error e := by
        simp only [checkCategories, hc]
      rw [hstep] at h
      simp at h
    | ok p =>
      obtain ⟨sm, l1⟩ := p
      have hstep : checkCategories s (c :: rest) fetch so =
          match checkCategories sm rest fetch so with
          | Except.error e => Except.error e
          | Except.ok (s2, l2) => Except.ok (s2, l1 ++ l2) := by
        simp only [checkCategories, hc]
      rw [hstep] at h
      cases hr : checkCategories sm rest fetch so with
      | error e => rw [hr] at h; simp at h
      | ok q =>
        rw [hr] at h
        obtain ⟨s2, l2⟩ := q
        simp only [Except.ok.injEq, Prod.mk.injEq] at h
        obtain ⟨rfl, rfl⟩ := h
        rw [countAttempts_append]
        by_cases hcc : c = ct
        · subst hcc
          have h1 : countAttempts l1 c v = 1 := try_count_one hv hf hm hc
          have hnr : c ∉ rest := (List.nodup_cons.mp hnd).1
          have h2 : countAttempts l2 c v = 0 := by
            obtain ⟨hsh2, -⟩ := cats_master hr
            refine countAttempts_zero_of ?_
            intro a ha hmt
            have hmem := hsh2 a ha
            rw [hmt.1] at hmem
            exact hnr hmem
          rw [h1, h2]
        · have h1 : countAttempts l1 ct v = 0 := by
            obtain ⟨hsh1, -⟩ := try_master hc
            refine countAttempts_zero_of ?_
            intro a ha hmt
            have hac := hsh1 a ha
            rw [hmt.1] at hac
            exact hcc hac.symm
          have hvm : v ∉ sm.video_ids ct := by
            obtain ⟨hsh1, hch1⟩ := try_master hc
            rw [hch1]
            rintro (h2 | h2)
            · exact hv h2
            · rw [hasSuccessAttempt_iff] at h2
              obtain ⟨a, ha, hct, -, -⟩ := h2
              have hac := hsh1 a ha
              rw [hct] at hac
              exact hcc hac.symm
          have hctm2 : ct ∈ rest := by
            cases List.mem_cons.mp hctm with
            | inl hh => exact absurd hh.symm hcc
            | inr hh => exact hh
          have h2 := ih (List.nodup_cons.mp hnd).2 hctm2 hvm hf hm hr
          rw [h1, h2]

/-- In one pass over any category list, an identifier already known for a
category is never attempted. -/
theorem cats_count_zero_known {v : String} {fetch : FetchOracle}
    {so : SendOracle} {ct : ContentType} :
    ∀ {cts : List ContentType} {s s1 : Looper} {log : List Attempt},
      v ∈ s.video_ids ct →
      checkCategories s cts fetch so = Except.ok (s1, log) →
      countAttempts log ct v = 0 := by
  intro cts
  induction cts with
  | nil =>
    intro s s1 log _ h
    unfold checkCategories at h
    simp only [Except.ok.injEq, Prod.mk.injEq] at h
    obtain ⟨rfl, rfl⟩ := h
    simp [countAttempts]
  | cons c rest ih =>
    intro s s1 log hv h
    cases hc : try_check_video_ids s c fetch (so c) with
    | error e =>
      have hstep : checkCategories s (c :: rest) fetch so =
          Except.error e := by
        simp only [checkCategories, hc]
      rw [hstep] at h
      simp at h
    | ok p =>
      obtain ⟨sm, l1⟩ := p
      have hstep : checkCategories s (c :: rest) fetch so =
          match checkCategories sm rest fetch so with
          | Except.error e => Except.error e
          | Except.ok (s2, l2) => Except.ok (s2, l1 ++ l2) := by
        simp only [checkCategories, hc]
      rw [hstep] at h
      cases hr : checkCategories sm rest fetch so with
      | error e => rw [hr] at h; simp at h
      | ok q =>
        rw [hr] at h
        obtain ⟨s2, l2⟩ := q
        simp only [Except.ok.injEq, Prod.mk.injEq] at h
        obtain ⟨rfl, rfl⟩ := h
        rw [countAttempts_append]
        obtain ⟨hsh1, hch1⟩ := try_master hc
        have h1 : countAttempts l1 ct v = 0 := by
          by_cases hcc : c = ct
          · subst hcc
            exact try_count_zero_known hv hc
          · refine countAttempts_zero_of ?_
            intro a ha hmt
            have hac := hsh1 a ha
            rw [hmt.1] at hac
            exact hcc hac.symm
        have hvm : v ∈ sm.video_ids ct := by
          rw [hch1]
          exact Or.inl hv
        rw [h1, ih hvm hr]

/-- Inversion of a successful finite run prefix: the known sets change
exactly by the successful deliveries recorded across its cycles. -/
theorem run_master :
    ∀ {cycles : List (FetchOracle × SendOracle)} {s s1 : Looper}
      {logs : List (List Attempt)},
      runCycles s cycles = Except.ok (s1, logs) →
      ∀ c i, i ∈ s1.video_ids c ↔
        (i ∈ s.video_ids c ∨ hasSuccessCycles logs c i = true) := by
  intro cycles
  induction cycles with
  | nil =>
    intro s s1 logs h
    unfold runCycles at h
    simp only [Except.ok.injEq, Prod.mk.injEq] at h
    obtain ⟨rfl, rfl⟩ := h
    intro c i
    simp [hasSuccessCycles]
  | cons cyc rest ih =>
    intro s s1 logs h
    cases hc : looper s cyc.1 cyc.2 with
    | error e =>
      have hstep : runCycles s (cyc :: rest) = Except.error e := by
        simp only [runCycles, hc]
      rw [hstep] at h
      simp at h
    | ok p =>
      obtain ⟨sm, l⟩ := p
      have hstep : runCycles s (cyc :: rest) =
          match runCycles sm rest with
          | Except.error e => Except.error e
          | Except.ok (s2, ls) => Except.ok (s2, l :: ls) := by
        simp only [runCycles, hc]
      rw [hstep] at h
      cases hr : runCycles sm rest with
      | error e => rw [hr] at h; simp at h
      | ok q =>
        rw [hr] at h
        obtain ⟨s2, ls⟩ := q
        simp only [Except.ok.injEq, Prod.mk.injEq] at h
        obtain ⟨rfl, rfl⟩ := h
        intro c i
        have hch1 := (cats_master hc).2
        have hch2 := ih hr
        rw [hch2, hch1 c i]
        simp only [hasSuccessCycles, List.any_cons, Bool.or_eq_true]
        tauto

/-- An uncaught exception in the first cycle terminates the whole run
with that exception. -/
theorem runCycles_error_first {s : Looper} {fetch : FetchOracle}
    {so : SendOracle} {rest : List (FetchOracle × SendOracle)} {e : PyError}
    (h : looper s fetch so = Except.error e) :
    runCycles s ((fetch, so) :: rest) = Except.error e := by
  simp only [runCycles, h]

/-- A cycle that raised no uncaught exception equals its extracted state
and log. -/
theorem looper_ok_eq {s : Looper} {fetch : FetchOracle} {so : SendOracle}
    (h : isOkE (looper s fetch so) = true) :
    looper s fetch so =
      Except.ok (cycleStateD s fetch so, cycleLogD s fetch so) := by
  cases hl : looper s fetch so with
  | ok p =>
    obtain ⟨a, b⟩ := p
    unfold cycleStateD cycleLogD
    rw [hl]
  | error e =>
    rw [hl] at h
    simp [isOkE] at h

/-- A run prefix that raised no uncaught exception equals its extracted
state and logs. -/
theorem runCycles_ok_eq {s : Looper}
    {cycles : List (FetchOracle × SendOracle)}
    (h : isOkE (runCycles s cycles) = true) :
    runCycles s cycles =
      Except.ok (runStateD s cycles, runLogsD s cycles) := by
  cases hl : runCycles s cycles with
  | ok p =>
    obtain ⟨a, b⟩ := p
    unfold runStateD runLogsD
    rw [hl]
  | error e =>
    rw [hl] at h
    simp [isOkE] at h

/-- A construction that raised no uncaught exception equals its extracted
state. -/
theorem init_ok_eq {a : ContentType → Option AnnouncementData}
    {u t : String} {fetch : FetchOracle}
    (h : isOkE (Looper.init a u t fetch) = true) :
    Looper.init a u t fetch = Except.ok (initD a u t fetch) := by
  cases hl : Looper.init a u t fetch with
  | ok s =>
    unfold initD
    rw [hl]
  | error e =>
    rw [hl] at h
    simp [isOkE] at h

/-- Deduplicating a list does not change the finite set it denotes. -/
theorem dedup_toFinset (l : List String) : l.dedup.toFinset = l.toFinset := by
  apply Finset.ext
  intro x
  simp [List.mem_toFinset, List.mem_dedup]

/-- Field content of a successfully constructed Looper: the three
arguments are stored as given, and every known set is exactly the set of
identifiers of the unlimited baseline fetch of its category. -/
theorem init_fields {a : ContentType → Option AnnouncementData}
    {u t : String} {fetch : FetchOracle} {s : Looper}
    (h : Looper.init a u t fetch = Except.ok s) :
    s.announcements = a ∧ s.channel_username = u ∧ s.token = t ∧
    ∀ ct ids, fetch ct none = FetchResult.ok ids →
      s.video_ids ct = ids.toFinset := by
  cases h1 : fetch ContentType.videos none with
  | ok l1 =>
    cases h2 : fetch ContentType.shorts none with
    | ok l2 =>
      cases h3 : fetch ContentType.streams none with
      | ok l3 =>
        simp only [Looper.init, get_video_ids, h1, h2, h3,
          Except.ok.injEq] at h
        subst h
        refine ⟨rfl, rfl, rfl, ?_⟩
        intro ct ids hf
        cases ct with
        | videos =>
          rw [h1] at hf
          simp only [FetchResult.ok.injEq] at hf
          subst hf
          simp [dedup_toFinset]
        | shorts =>
          rw [h2] at hf
          simp only [FetchResult.ok.injEq] at hf
          subst hf
          simp [dedup_toFinset]
        | streams =>
          rw [h3] at hf
          simp only [FetchResult.ok.injEq] at hf
          subst hf
          simp [dedup_toFinset]
      | connectionError => simp [Looper.init, get_video_ids, h1, h2, h3] at h
      | jsonDecodeError => simp [Looper.init, get_video_ids, h1, h2, h3] at h
      | otherError => simp [Looper.init, get_video_ids, h1, h2, h3] at h
    | connectionError => simp [Looper.init, get_video_ids, h1, h2] at h
    | jsonDecodeError => simp [Looper.init, get_video_ids, h1, h2] at h
    | otherError => simp [Looper.init, get_video_ids, h1, h2] at h
  | connectionError => simp [Looper.init, get_video_ids, h1] at h
  | jsonDecodeError => simp [Looper.init, get_video_ids, h1] at h
  | otherError => simp [Looper.init, get_video_ids, h1] at h

/-- When construction succeeded, every unlimited baseline fetch was a
success and returned the recorded baseline list. -/
theorem init_fetch_ok {a : ContentType → Option AnnouncementData}
    {u t : String} {fetch : FetchOracle}
    (h : isOkE (Looper.init a u t fetch) = true) :
    ∀ ct, fetch ct none = FetchResult.ok (baselineIdsD fetch ct) := by
  intro ct
  cases h1 : fetch ContentType.videos none with
  | ok l1 =>
    cases h2 : fetch ContentType.shorts none with
    | ok l2 =>
      cases h3 : fetch ContentType.streams none with
      | ok l3 =>
        cases ct <;> simp [baselineIdsD, h1, h2, h3]
      | connectionError =>
        simp [Looper.init, get_video_ids, h1, h2, h3, isOkE] at h
      | jsonDecodeError =>
        simp [Looper.init, get_video_ids, h1, h2, h3, isOkE] at h
      | otherError =>
        simp [Looper.init, get_video_ids, h1, h2, h3, isOkE] at h
    | connectionError => simp [Looper.init, get_video_ids, h1, h2, isOkE] at h
    | jsonDecodeError => simp [Looper.init, get_video_ids, h1, h2, isOkE] at h
    | otherError => simp [Looper.init, get_video_ids, h1, h2, isOkE] at h
  | connectionError => simp [Looper.init, get_video_ids, h1, isOkE] at h
  | jsonDecodeError => simp [Looper.init, get_video_ids, h1, isOkE] at h
  | otherError => simp [Looper.init, get_video_ids, h1, isOkE] at h

/-- A concrete notification target used by the witnesses. -/
def wData : AnnouncementData := { channel_id := "chan1", content := "New video!" }

/-- A total announcements mapping used by the witnesses. -/
def wAnn : ContentType → Option AnnouncementData := fun _ => some wData

/-- An announcements mapping missing the shorts and streams entries. -/
def wAnnMissing : ContentType → Option AnnouncementData := fun ct =>
  match ct with
  | ContentType.videos => some wData
  | _ => none

/-- A fetch oracle whose unlimited listing is two identifiers and whose
bounded listing carries one new identifier. -/
def wFetch0 : FetchOracle := fun _ limit =>
  match limit with
  | none => FetchResult.ok ["v1", "v2"]
  | some _ => FetchResult.ok ["v1", "v2", "v3"]

/-- A fetch oracle that always returns the baseline listing. -/
def wFetchBase : FetchOracle := fun _ _ => FetchResult.ok ["v1", "v2"]

/-- A fetch oracle failing with a connection error for videos only. -/
def wFetchErr : FetchOracle := fun ct _ =>
  match ct with
  | ContentType.videos => FetchResult.connectionError
  | _ => FetchResult.ok ["v1", "v2"]

/-- A send oracle answering 200 to every post. -/
def wSendOk : SendOracle := fun _ _ => PostOutcome.status 200

/-- A send oracle answering 500 to every post. -/
def wSendFail : SendOracle := fun _ _ => PostOutcome.status 500

/-- A send oracle timing out on every post. -/
def wSendTimeout : SendOracle := fun _ _ => PostOutcome.timeout

/-- A send oracle raising a non-timeout error on every post. -/
def wSendErr : SendOracle := fun _ _ => PostOutcome.otherError

/-- The witness state constructed from the total mapping. -/
def wInit : Looper := initD wAnn "user" "tok" wFetch0

/-- The witness state constructed from the incomplete mapping. -/
def wMiss : Looper := initD wAnnMissing "user" "tok" wFetch0

/-- A well formed configuration for the construction in main. -/
def wCfgOk : List (String × ConfigValue) :=
  [("announcements", ConfigValue.table wAnn),
    ("channel_username", ConfigValue.str "user"),
    ("token", ConfigValue.str "tok")]

/-- A configuration whose announcements mapping misses two categories. -/
def wCfgMissing : List (String × ConfigValue) :=
  [("announcements", ConfigValue.table wAnnMissing),
    ("channel_username", ConfigValue.str "user"),
    ("token", ConfigValue.str "tok")]

/-- A configuration extended with a numeric initial-fetch cap entry. -/
def wCfgExtra : List (String × ConfigValue) :=
  wCfgOk ++ [("initial_fetch_limit", ConfigValue.num 100)]

/-- C1: over any run from construction, an identifier is in the known set
of a category exactly when it was listed by the unlimited
baseline fetch or some delivery attempt for it received a success
response; nothing else ever adds an identifier. -/
theorem known_ids_iff_baseline_or_delivery_success
    (a : ContentType → Option AnnouncementData) (u t : String)
    (fetch : FetchOracle) (cycles : List (FetchOracle × SendOracle))
    (ct : ContentType) (id : String)
    (hinit : isOkE (Looper.init a u t fetch) = true)
    (hrun : isOkE (runCycles (initD a u t fetch) cycles) = true) :
    id ∈ (runStateD (initD a u t fetch) cycles).video_ids ct ↔
      (id ∈ baselineIdsD fetch ct ∨
        hasSuccessCycles (runLogsD (initD a u t fetch) cycles) ct id
          = true) := by
  have hr := runCycles_ok_eq hrun
  have hch := run_master hr ct id
  rw [hch]
  have hbase : (initD a u t fetch).video_ids ct =
      (baselineIdsD fetch ct).toFinset :=
    (init_fields (init_ok_eq hinit)).2.2.2 ct (baselineIdsD fetch ct)
      (init_fetch_ok hinit ct)
  rw [hbase]
  simp [List.mem_toFinset]

/-- C1 witness at a concrete run of one cycle. -/
theorem known_ids_iff_baseline_or_delivery_success_witness :
    "v3" ∈ (runStateD wInit [(wFetch0, wSendOk)]).video_ids
        ContentType.videos ↔
      ("v3" ∈ baselineIdsD wFetch0 ContentType.videos ∨
        hasSuccessCycles (runLogsD wInit [(wFetch0, wSendOk)])
          ContentType.videos "v3" = true) :=
  known_ids_iff_baseline_or_delivery_success wAnn "user" "tok" wFetch0
    [(wFetch0, wSendOk)] ContentType.videos "v3" (by decide) (by decide)

/-- C2: an identifier returned by the bounded fetch of a cycle for a
category and not in the known set of that category receives one delivery
attempt in that cycle; and a cycle with no successful delivery for it
leaves it unknown, so the same holds for the next cycle until a delivery
succeeds or the fetch stops returning it. -/
theorem new_id_attempted_exactly_once_per_cycle :
    (∀ (s : Looper) (fetch : FetchOracle) (so : SendOracle)
        (ct : ContentType) (id : String) (ids : List String),
        id ∉ s.video_ids ct → fetch ct (some 28) = FetchResult.ok ids →
        id ∈ ids → isOkE (looper s fetch so) = true →
        countAttempts (cycleLogD s fetch so) ct id = 1) ∧
    (∀ (s : Looper) (fetch : FetchOracle) (so : SendOracle)
        (ct : ContentType) (id : String),
        id ∉ s.video_ids ct →
        hasSuccessAttempt (cycleLogD s fetch so) ct id = false →
        id ∉ (cycleStateD s fetch so).video_ids ct) := by
  constructor
  · intro s fetch so ct id ids hv hf hm hok
    have hl := looper_ok_eq hok
    have hl2 : checkCategories s contentTypes fetch so =
        Except.ok (cycleStateD s fetch so, cycleLogD s fetch so) := hl
    exact cats_count_one contentTypes_nodup (mem_contentTypes ct) hv hf hm hl2
  · intro s fetch so ct id hv hs
    cases hl : looper s fetch so with
    | error e =>
      simp only [cycleStateD, hl]
      exact hv
    | ok p =>
      obtain ⟨s1, l⟩ := p
      have hlog : cycleLogD s fetch so = l := by
        simp only [cycleLogD, hl]
      simp only [cycleStateD, hl]
      have hl2 : checkCategories s contentTypes fetch so =
          Except.ok (s1, l) := hl
      rw [(cats_master hl2).2 ct id]
      rw [hlog] at hs
      rintro (h1 | h1)
      · exact hv h1
      · rw [hs] at h1
        simp at h1

/-- C2 witness: one failing cycle attempts the new identifier once and
leaves it unknown. -/
theorem new_id_attempted_exactly_once_per_cycle_witness :
    countAttempts (cycleLogD wInit wFetch0 wSendFail)
        ContentType.videos "v3" = 1 ∧
    "v3" ∉ (cycleStateD wInit wFetch0 wSendFail).video_ids
        ContentType.videos :=
  ⟨new_id_attempted_exactly_once_per_cycle.1 wInit wFetch0 wSendFail
      ContentType.videos "v3" ["v1", "v2", "v3"] (by decide) rfl
      (by decide) (by decide),
    new_id_attempted_exactly_once_per_cycle.2 wInit wFetch0 wSendFail
      ContentType.videos "v3" (by decide) (by decide)⟩

/-- C3: an identifier in the known set because it was in the unlimited
baseline or because a delivery for it succeeded in an earlier cycle is
never attempted again in any later cycle, whatever that cycle fetches. -/
theorem known_id_never_reattempted
    (a : ContentType → Option AnnouncementData) (u t : String)
    (fetch : FetchOracle) (pre : List (FetchOracle × SendOracle))
    (fetchC : FetchOracle) (soC : SendOracle) (ct : ContentType)
    (id : String)
    (hinit : isOkE (Looper.init a u t fetch) = true)
    (hrun : isOkE (runCycles (initD a u t fetch) pre) = true)
    (hknown : id ∈ baselineIdsD fetch ct ∨
      hasSuccessCycles (runLogsD (initD a u t fetch) pre) ct id = true) :
    countAttempts (cycleLogD (runStateD (initD a u t fetch) pre) fetchC soC)
      ct id = 0 := by
  have hr := runCycles_ok_eq hrun
  have hch := run_master hr ct id
  have hbase : (initD a u t fetch).video_ids ct =
      (baselineIdsD fetch ct).toFinset :=
    (init_fields (init_ok_eq hinit)).2.2.2 ct (baselineIdsD fetch ct)
      (init_fetch_ok hinit ct)
  have hmem : id ∈ (runStateD (initD a u t fetch) pre).video_ids ct := by
    rw [hch, hbase]
    rcases hknown with h | h
    · exact Or.inl (List.mem_toFinset.mpr h)
    · exact Or.inr h
  cases hl : looper (runStateD (initD a u t fetch) pre) fetchC soC with
  | error e =>
    simp only [cycleLogD, hl]
    simp [countAttempts]
  | ok p =>
    obtain ⟨s1, l⟩ := p
    simp only [cycleLogD, hl]
    have hl2 : checkCategories (runStateD (initD a u t fetch) pre)
        contentTypes fetchC soC = Except.ok (s1, l) := hl
    exact cats_count_zero_known hmem hl2

/-- C3 witness: a baseline identifier refetched in the next cycle is not
attempted. -/
theorem known_id_never_reattempted_witness :
    countAttempts (cycleLogD (runStateD wInit []) wFetch0 wSendFail)
      ContentType.videos "v1" = 0 :=
  known_id_never_reattempted wAnn "user" "tok" wFetch0 [] wFetch0 wSendFail
    ContentType.videos "v1" (by decide) (by decide) (Or.inl (by decide))

/-- C9: the known sets only grow: across one delivery check, one cycle
and any finite run prefix, every member of a known set stays a member. -/
theorem known_ids_monotone :
    (∀ (s : Looper) (ct : ContentType) (id : String)
        (so : String → PostOutcome) (c : ContentType) (i : String),
        i ∈ s.video_ids c → i ∈ (checkStateD s ct id so).video_ids c) ∧
    (∀ (s : Looper) (fetch : FetchOracle) (so : SendOracle)
        (c : ContentType) (i : String),
        i ∈ s.video_ids c → i ∈ (cycleStateD s fetch so).video_ids c) ∧
    (∀ (s : Looper) (cycles : List (FetchOracle × SendOracle))
        (c : ContentType) (i : String),
        i ∈ s.video_ids c → i ∈ (runStateD s cycles).video_ids c) := by
  refine ⟨?_, ?_, ?_⟩
  · intro s ct id so c i hi
    cases hl : check_new_video_id s ct id so with
    | error e => simp only [checkStateD, hl]; exact hi
    | ok p =>
      obtain ⟨s1, l⟩ := p
      simp only [checkStateD, hl]
      exact ((check_id_master hl).2.1 c i).mpr (Or.inl hi)
  · intro s fetch so c i hi
    cases hl : looper s fetch so with
    | error e => simp only [cycleStateD, hl]; exact hi
    | ok p =>
      obtain ⟨s1, l⟩ := p
      simp only [cycleStateD, hl]
      have hl2 : checkCategories s contentTypes fetch so =
          Except.ok (s1, l) := hl
      exact ((cats_master hl2).2 c i).mpr (Or.inl hi)
  · intro s cycles c i hi
    cases hl : runCycles s cycles with
    | error e => simp only [runStateD, hl]; exact hi
    | ok p =>
      obtain ⟨s1, ls⟩ := p
      simp only [runStateD, hl]
      exact (run_master hl c i).mpr (Or.inl hi)

/-- C9 witness at a concrete check, cycle and run. -/
theorem known_ids_monotone_witness :
    "v1" ∈ (checkStateD wInit ContentType.videos "v3"
        (wSendFail ContentType.videos)).video_ids ContentType.videos ∧
    "v1" ∈ (cycleStateD wInit wFetch0 wSendOk).video_ids
        ContentType.videos ∧
    "v1" ∈ (runStateD wInit [(wFetch0, wSendOk)]).video_ids
        ContentType.videos :=
  ⟨known_ids_monotone.1 wInit ContentType.videos "v3"
      (wSendFail ContentType.videos) ContentType.videos "v1" (by decide),
    known_ids_monotone.2.1 wInit wFetch0 wSendOk ContentType.videos "v1"
      (by decide),
    known_ids_monotone.2.2 wInit [(wFetch0, wSendOk)] ContentType.videos
      "v1" (by decide)⟩

/-- C5: a bounded fetch failing with one of the caught SourceUnavailable
exception classes is recovered locally: the category is skipped for the
cycle with the state unchanged, no delivery attempts and no raised
exception, and the cycle continues with the remaining categories exactly
as if the failed category were absent. -/
theorem source_unavailable_recovered_locally
    (s : Looper) (ct : ContentType) (rest : List ContentType)
    (fetch : FetchOracle) (so : SendOracle) (sop : String → PostOutcome)
    (h : fetch ct (some 28) = FetchResult.connectionError ∨
      fetch ct (some 28) = FetchResult.jsonDecodeError) :
    try_check_video_ids s ct fetch sop = Except.ok (s, []) ∧
    checkCategories s (ct :: rest) fetch so =
      checkCategories s rest fetch so := by
  have htry : ∀ (sop2 : String → PostOutcome),
      try_check_video_ids s ct fetch sop2 = Except.ok (s, []) := by
    intro sop2
    rcases h with h | h
    · simp only [try_check_video_ids, get_video_ids, h]
    · simp only [try_check_video_ids, get_video_ids, h]
  refine ⟨htry sop, ?_⟩
  have hstep : checkCategories s (ct :: rest) fetch so =
      match checkCategories s rest fetch so with
      | Except.error e => Except.error e
      | Except.ok (s2, l2) => Except.ok (s2, [] ++ l2) := by
    simp only [checkCategories, htry (so ct)]
  rw [hstep]
  cases hr : checkCategories s rest fetch so with
  | error e => rfl
  | ok q =>
    obtain ⟨s2, l2⟩ := q
    simp

/-- C5 witness: a connection failure on videos skips that category and
the cycle reduces to the remaining categories. -/
theorem source_unavailable_recovered_locally_witness :
    try_check_video_ids wInit ContentType.videos wFetchErr
        (wSendOk ContentType.videos) = Except.ok (wInit, []) ∧
    checkCategories wInit [ContentType.videos, ContentType.shorts]
        wFetchErr wSendOk =
      checkCategories wInit [ContentType.shorts] wFetchErr wSendOk :=
  source_unavailable_recovered_locally wInit ContentType.videos
    [ContentType.shorts] wFetchErr wSendOk (wSendOk ContentType.videos)
    (Or.inl rfl)

/-- C8: with the target of the category configured, a delivery reports success
exactly for status code 200 (hence only 2xx codes), and exactly then the
identifier enters the known set of that category, all other entries left
unchanged. -/
theorem delivery_success_iff_status_200
    (s : Looper) (ct : ContentType) (id : String) (code : Nat)
    (so : String → PostOutcome) (data : AnnouncementData)
    (hann : s.announcements ct = some data)
    (hso : so id = PostOutcome.status code)
    (hv : id ∉ s.video_ids ct) :
    (send_announcment s ct id (PostOutcome.status code) = Except.ok true ↔
      code = 200) ∧
    (send_announcment s ct id (PostOutcome.status code) = Except.ok true →
      200 ≤ code ∧ code < 300) ∧
    (id ∈ (checkStateD s ct id so).video_ids ct ↔ code = 200) ∧
    (∀ c i, ¬(c = ct ∧ i = id) →
      (i ∈ (checkStateD s ct id so).video_ids c ↔ i ∈ s.video_ids c)) := by
  have hsend : send_announcment s ct id (PostOutcome.status code) =
      Except.ok (code == 200) := by
    rw [send_announcment_eq, hann]
  have hiff : send_announcment s ct id (PostOutcome.status code) =
      Except.ok true ↔ code = 200 := by
    rw [hsend]
    constructor
    · intro hh
      simp only [Except.ok.injEq] at hh
      exact beq_iff_eq.mp hh
    · intro hh
      subst hh
      rfl
  have hsend2 : send_announcment s ct id (so id) =
      Except.ok (code == 200) := by
    rw [hso]
    exact hsend
  refine ⟨hiff, ?_, ?_, ?_⟩
  · intro hh
    have hc := hiff.mp hh
    subst hc
    omega
  · by_cases hc : code = 200
    · subst hc
      have hb : ((200 : Nat) == 200) = true := by decide
      have hchk : check_new_video_id s ct id so =
          Except.ok
            ({ s with
                video_ids := fun c =>
                  if c = ct then insert id (s.video_ids ct)
                  else s.video_ids c },
              [⟨ct, id, so id⟩]) := by
        unfold check_new_video_id
        rw [if_neg hv, hsend2, hb]
        rfl
      simp only [checkStateD, hchk]
      simp [Finset.mem_insert]
    · have hb : (code == 200) = false := by simp [hc]
      have hchk : check_new_video_id s ct id so =
          Except.ok (s, [⟨ct, id, so id⟩]) := by
        unfold check_new_video_id
        rw [if_neg hv, hsend2, hb]
        rfl
      simp only [checkStateD, hchk]
      simp [hv, hc]
  · intro c i hci
    cases hl : check_new_video_id s ct id so with
    | error e =>
      simp only [checkStateD, hl]
    | ok p =>
      obtain ⟨s1, l⟩ := p
      simp only [checkStateD, hl]
      have hchar := (check_id_master hl).2.1 c i
      have hshape := (check_id_master hl).1
      rw [hchar]
      constructor
      · rintro (h1 | h1)
        · exact h1
        · rw [hasSuccessAttempt_iff] at h1
          obtain ⟨a2, ha2, hc2, hi2, -⟩ := h1
          obtain ⟨hact, haid⟩ := hshape a2 ha2
          rw [hc2] at hact
          rw [hi2] at haid
          exact absurd ⟨hact, haid⟩ hci
      · intro h1
        exact Or.inl h1

/-- C8 witness at status code 500. -/
theorem delivery_success_iff_status_200_witness :
    (send_announcment wInit ContentType.videos "v3"
        (PostOutcome.status 500) = Except.ok true ↔ (500 : Nat) = 200) ∧
    ("v3" ∈ (checkStateD wInit ContentType.videos "v3"
        (wSendFail ContentType.videos)).video_ids ContentType.videos ↔
      (500 : Nat) = 200) := by
  have h := delivery_success_iff_status_200 wInit ContentType.videos "v3"
    500 (wSendFail ContentType.videos) wData rfl rfl (by decide)
  exact ⟨h.1, h.2.2.1⟩

/-- C10: during a delivery only the bounded timeout is caught: a timeout
leaves the state unchanged and the loop alive, while any other exception
of the post escapes check_new_video_id uncaught, and an uncaught
exception in a cycle terminates the whole run with that exception. -/
theorem only_timeout_recovered_in_delivery :
    (∀ (s : Looper) (ct : ContentType) (id : String)
        (so : String → PostOutcome) (data : AnnouncementData),
        s.announcements ct = some data → id ∉ s.video_ids ct →
        so id = PostOutcome.otherError →
        check_new_video_id s ct id so =
          Except.error PyError.postOtherError) ∧
    (∀ (s : Looper) (ct : ContentType) (id : String)
        (so : String → PostOutcome) (data : AnnouncementData),
        s.announcements ct = some data → id ∉ s.video_ids ct →
        so id = PostOutcome.timeout →
        check_new_video_id s ct id so =
          Except.ok (s, [⟨ct, id, PostOutcome.timeout⟩])) ∧
    (∀ (s : Looper) (fetch : FetchOracle) (so : SendOracle)
        (rest : List (FetchOracle × SendOracle)) (e : PyError),
        looper s fetch so = Except.error e →
        runCycles s ((fetch, so) :: rest) = Except.error e) := by
  refine ⟨?_, ?_, ?_⟩
  · intro s ct id so data hann hv hso
    have hsend : send_announcment s ct id (so id) =
        Except.error PyError.postOtherError := by
      rw [hso, send_announcment_eq, hann]
    unfold check_new_video_id
    rw [if_neg hv, hsend]
  · intro s ct id so data hann hv hso
    have hsend : send_announcment s ct id (so id) =
        Except.error PyError.timeoutError := by
      rw [hso, send_announcment_eq, hann]
    unfold check_new_video_id
    rw [if_neg hv, hsend, hso]
  · intro s fetch so rest e h
    exact runCycles_error_first h

/-- C10 witness: the non-timeout post failure escapes and kills the run,
the timeout is recovered. -/
theorem only_timeout_recovered_in_delivery_witness :
    check_new_video_id wInit ContentType.videos "v3"
        (wSendErr ContentType.videos) =
      Except.error PyError.postOtherError ∧
    check_new_video_id wInit ContentType.videos "v3"
        (wSendTimeout ContentType.videos) =
      Except.ok (wInit, [⟨ContentType.videos, "v3", PostOutcome.timeout⟩]) ∧
    runCycles wInit [(wFetch0, wSendErr)] =
      Except.error PyError.postOtherError :=
  ⟨only_timeout_recovered_in_delivery.1 wInit ContentType.videos "v3"
      (wSendErr ContentType.videos) wData rfl (by decide) rfl,
    only_timeout_recovered_in_delivery.2.1 wInit ContentType.videos "v3"
      (wSendTimeout ContentType.videos) wData rfl (by decide) rfl,
    only_timeout_recovered_in_delivery.2.2 wInit wFetch0 wSendErr []
      PyError.postOtherError (by rfl)⟩

/-- C4 counterexample: with the shorts mapping absent from the
announcements object, construction succeeds and a benign cycle runs, so
startup does not fail before the loop begins. -/
theorem missing_mapping_startup_succeeds_cex :
    isOkE (mkLooper wCfgMissing wFetch0) = true ∧
    wAnnMissing ContentType.shorts = none ∧
    isOkE (runCycles (initD wAnnMissing "user" "tok" wFetchBase)
      [(wFetchBase, wSendOk)]) = true := by
  refine ⟨by decide, rfl, by decide⟩

/-- C4 as amended: construction ignores the announcements mapping, so a
missing category entry never fails startup; the KeyError is raised at the
first delivery attempt for that category, escapes uncaught, and an
uncaught cycle exception terminates the run there. -/
theorem missing_mapping_fails_at_first_delivery :
    (∀ (a : ContentType → Option AnnouncementData) (u t : String)
        (fetch : FetchOracle),
        mkLooper [("announcements", ConfigValue.table a),
          ("channel_username", ConfigValue.str u),
          ("token", ConfigValue.str t)] fetch = Looper.init a u t fetch) ∧
    (∀ (s : Looper) (ct : ContentType) (id : String)
        (so : String → PostOutcome),
        s.announcements ct = none → id ∉ s.video_ids ct →
        check_new_video_id s ct id so = Except.error PyError.keyError) ∧
    (∀ (s : Looper) (c : FetchOracle × SendOracle)
        (rest : List (FetchOracle × SendOracle)) (e : PyError),
        looper s c.1 c.2 = Except.error e →
        runCycles s (c :: rest) = Except.error e) := by
  refine ⟨?_, ?_, ?_⟩
  · intro a u t fetch
    rfl
  · intro s ct id so hann hv
    have hsend : send_announcment s ct id (so id) =
        Except.error PyError.keyError := by
      rw [send_announcment_eq, hann]
    unfold check_new_video_id
    rw [if_neg hv, hsend]
  · intro s c rest e h
    obtain ⟨f, so⟩ := c
    exact runCycles_error_first h

/-- C4 witness: the incomplete configuration constructs, and the first
new shorts identifier raises the KeyError that ends the run. -/
theorem missing_mapping_fails_at_first_delivery_witness :
    mkLooper wCfgMissing wFetch0 =
      Looper.init wAnnMissing "user" "tok" wFetch0 ∧
    check_new_video_id wMiss ContentType.shorts "v3"
        (wSendOk ContentType.shorts) = Except.error PyError.keyError ∧
    runCycles wMiss [(wFetch0, wSendOk)] =
      Except.error PyError.keyError := by
  refine ⟨missing_mapping_fails_at_first_delivery.1 wAnnMissing "user"
      "tok" wFetch0,
    missing_mapping_fails_at_first_delivery.2.1 wMiss ContentType.shorts
      "v3" (wSendOk ContentType.shorts) rfl (by decide),
    missing_mapping_fails_at_first_delivery.2.2 wMiss (wFetch0, wSendOk)
      [] PyError.keyError ?_⟩
  rfl

/-- C6 counterexample: the posted text is not the bare concatenation of
the configured template with the watch URL. -/
theorem message_not_bare_concatenation_cex :
    postBody wData "abc" ≠ specMessageBody wData "abc" := by
  decide

/-- C6 as amended: the single text field of the body is the mention
prefix, the configured template, one space, the twelve spaces of the
f-string line continuation, then the watch URL with the identifier; and
construction cannot fail: with the category configured, any received
status yields a definite boolean result and no exception. -/
theorem message_body_exact_form
    (data : AnnouncementData) (id : String) (s : Looper)
    (ct : ContentType) (code : Nat)
    (hann : s.announcements ct = some data) :
    postBody data id =
      "@everyone " ++ data.content ++ " " ++
        "            https://www.youtube.com/watch?v=" ++ id ∧
    send_announcment s ct id (PostOutcome.status code) =
      Except.ok (code == 200) := by
  constructor
  · simp [postBody, messageContent, watchUrlPart, String.append_assoc]
  · rw [send_announcment_eq, hann]

/-- C6 witness at a concrete template, identifier and status. -/
theorem message_body_exact_form_witness :
    postBody wData "abc" =
      "@everyone " ++ wData.content ++ " " ++
        "            https://www.youtube.com/watch?v=" ++ "abc" ∧
    send_announcment wInit ContentType.videos "abc"
        (PostOutcome.status 500) = Except.ok ((500 : Nat) == 200) :=
  message_body_exact_form wData "abc" wInit ContentType.videos 500 rfl

/-- C7 counterexample: a configuration carrying a numeric initial-fetch
cap entry is rejected at startup with a TypeError, since Looper has no
such keyword parameter. -/
theorem config_cap_key_rejected_cex :
    mkLooper wCfgExtra wFetch0 = Except.error PyError.typeError := by
  rfl

/-- C7 as amended: the startup configuration has no cap option: a
successfully constructed configuration uses only the three keyword
parameters of Looper, and the baseline fetch of every category is always
invoked with no limit, its identifier set becoming the known set. -/
theorem no_config_cap_and_baseline_unlimited :
    (∀ (cfg : List (String × ConfigValue)) (fetch : FetchOracle)
        (s : Looper),
        mkLooper cfg fetch = Except.ok s →
        ∀ kv ∈ cfg, kv.1 ∈ acceptedParams) ∧
    (∀ (a : ContentType → Option AnnouncementData) (u t : String)
        (fetch : FetchOracle) (s : Looper) (ct : ContentType)
        (ids : List String),
        Looper.init a u t fetch = Except.ok s →
        fetch ct none = FetchResult.ok ids →
        s.video_ids ct = ids.toFinset) := by
  constructor
  · intro cfg fetch s h kv hkv
    unfold mkLooper at h
    by_cases hall : cfg.all (fun kv => decide (kv.1 ∈ acceptedParams))
        = true
    · have hp := List.all_eq_true.mp hall kv hkv
      simpa using hp
    · rw [if_neg hall] at h
      simp at h
  · intro a u t fetch s ct ids h hf
    exact (init_fields h).2.2.2 ct ids hf

/-- C7 witness: a key of the accepted configuration and the unlimited
baseline of a constructed state. -/
theorem no_config_cap_and_baseline_unlimited_witness :
    ("announcements" : String) ∈ acceptedParams ∧
    (initD wAnn "user" "tok" wFetch0).video_ids ContentType.videos =
      (["v1", "v2"] : List String).toFinset := by
  constructor
  · exact no_config_cap_and_baseline_unlimited.1 wCfgOk wFetch0
      (initD wAnn "user" "tok" wFetch0) rfl
      ("announcements", ConfigValue.table wAnn) (by simp [wCfgOk])
  · exact no_config_cap_and_baseline_unlimited.2 wAnn "user" "tok"
      wFetch0 (initD wAnn "user" "tok" wFetch0) ContentType.videos
      ["v1", "v2"] rfl rfl
